import Mathlib

/-!
Shallow embedding of pkg/imgpkg/image/registry.go (carvel-imgpkg):
the registry client facade, its credential-resolution keychain, the
HTTP transport builder and the write-retry policy.  External
collaborators (the go-containerregistry protocol library, the
filesystem, the system certificate pool, the platform default
keychain) are modelled as explicit oracle parameters; everything the
Go file itself computes is translated directly.
-/

namespace Imgpkg

/-- Error codes carried by the sub-errors of a protocol transport
error (regremtran.Error.Errors[k].Code).  Only the unauthorized code
is distinguished by the Go code under study. -/
inductive ErrorCode where
  | unauthorized
  | other : String → ErrorCode
deriving DecidableEq, Repr

/-- One sub-error (diagnostic) of a transport error. -/
structure Diag where
  code : ErrorCode
deriving DecidableEq, Repr

/-- An error value returned by an operation handed to the retry loop:
either a protocol transport error (a value of type regremtran.Error,
carrying its list of sub-errors) or any other Go error.  The string is
the text its Error() method would render, which the Go code only ever
interpolates with %s. -/
inductive RegError where
  | transport : List Diag → String → RegError
  | plain : String → RegError
deriving DecidableEq, Repr

/-- The Error() string of a RegError, as interpolated by fmt %s. -/
def RegError.message : RegError → String
  | .transport _ m => m
  | .plain m => m

/-- The short-circuit test of Registry.retry: the error is a
regremtran.Error, its Errors list is non-empty, and the first
sub-error's Code is the unauthorized code (registry.go lines
189-194). -/
def isUnauthorizedTransport : RegError → Bool
  | .transport (d :: _) _ => d.code == .unauthorized
  | _ => false

/-- Which return statement of Registry.retry fired, carrying the
message of the underlying error it wraps. -/
inductive RetryOutcome where
  | ok
  | nonRetryable : String → RetryOutcome
  | exhausted : String → RetryOutcome
deriving DecidableEq, Repr

/-- The error string Registry.retry returns for each outcome (none on
success): the two fmt.Errorf formats of registry.go lines 192 and
199. -/
def RetryOutcome.errMsg : RetryOutcome → Option String
  | .ok => none
  | .nonRetryable m => some ("Non-retryable error: " ++ m)
  | .exhausted m => some ("Retried 5 times: " ++ m)

/-- Observable trace of one run of Registry.retry: its outcome, how
many times it invoked doFunc, and how many one-second sleeps it
performed. -/
structure RetryTrace where
  outcome : RetryOutcome
  calls : Nat
  sleeps : Nat
deriving DecidableEq, Repr

/-- The loop body of Registry.retry (registry.go lines 183-198).
doFunc is modelled as a function of the attempt index (attempt j of
the Go loop yields doFunc j); lastMsg is the message of lastErr from
the previous iteration; fuel is the number of loop iterations left.
Each failed iteration that does not short-circuit ends with
time.Sleep(1 second). -/
def retryFrom (doFunc : Nat → Option RegError) (lastMsg : String) :
    Nat → Nat → RetryTrace
  | _, 0 => ⟨.exhausted lastMsg, 0, 0⟩
  | j, fuel + 1 =>
    match doFunc j with
    | none => ⟨.ok, 1, 0⟩
    | some e =>
      if isUnauthorizedTransport e then ⟨.nonRetryable e.message, 1, 0⟩
      else
        let t := retryFrom doFunc e.message (j + 1) fuel
        ⟨t.outcome, t.calls + 1, t.sleeps + 1⟩

/-- Registry.retry: for i := 0; i < 5; i++ { ... } (registry.go lines
180-200).  The initial lastMsg is irrelevant: with five iterations of
fuel the exhausted branch is only ever reached after a failure has
overwritten it. -/
def retry (doFunc : Nat → Option RegError) : RetryTrace :=
  retryFrom doFunc "" 0 5

/-- The RegistryOpts configuration struct (registry.go lines 19-27). -/
structure RegistryOpts where
  CACertPaths : List String
  VerifyCerts : Bool
  Username : String
  Password : String
  Token : String
  Anon : Bool
deriving DecidableEq, Repr

/-- An authenticator as produced by the go-containerregistry authn
package: regauthn.Basic, regauthn.Bearer, regauthn.Anonymous, or
whatever authenticator the platform default keychain resolved. -/
inductive Authenticator where
  | basic : String → String → Authenticator
  | bearer : String → Authenticator
  | anonymous
  | fromDefaultChain : Nat → Authenticator
deriving DecidableEq, Repr

/-- The platform default credential chain
(regauthn.DefaultKeychain.Resolve), an external collaborator: maps the
registry host of the resource to an authenticator or an error. -/
abbrev DefaultChain : Type := String → Except String Authenticator

/-- The keychain struct of registry.go lines 202-204. -/
structure customRegistryKeychain where
  opts : RegistryOpts

/-- customRegistryKeychain.Resolve (registry.go lines 206-217): the
switch with first match winning; res is the registry host of the
resource, dc the platform default keychain collaborator. -/
def customRegistryKeychain.Resolve (k : customRegistryKeychain)
    (dc : DefaultChain) (res : String) : Except String Authenticator :=
  if 0 < k.opts.Username.length then
    .ok (.basic k.opts.Username k.opts.Password)
  else if 0 < k.opts.Token.length then
    .ok (.bearer k.opts.Token)
  else if k.opts.Anon then
    .ok .anonymous
  else
    dc res

/-- External collaborators of Registry.newHTTPTransport: the system
certificate pool (none when x509.SystemCertPool errors), the
filesystem (ioutil.ReadFile), and PEM validity
(x509.CertPool.AppendCertsFromPEM reporting ok).  A certificate pool
is modelled as the list of PEM byte-strings appended to it. -/
structure TransportEnv where
  systemPool : Option (List String)
  readFile : String → Except String String
  validPEM : String → Bool

/-- The pool Registry.newHTTPTransport starts from (registry.go lines
142-145): the system pool, or a fresh empty pool when
x509.SystemCertPool returned an error. -/
def initialPool (env : TransportEnv) : List String :=
  match env.systemPool with
  | some p => p
  | none => []

/-- The loop of registry.go lines 148-154: read each CA certificate
path in order and append its bytes to the pool, failing with the
fmt.Errorf message of the offending path when the file cannot be read
or AppendCertsFromPEM does not accept it. -/
def appendCertPaths (env : TransportEnv) (pool : List String) :
    List String → Except String (List String)
  | [] => .ok pool
  | path :: rest =>
    match env.readFile path with
    | .error e =>
      .error ("Reading CA certificates from '" ++ path ++ "': " ++ e)
    | .ok certs =>
      if env.validPEM certs then appendCertPaths env (pool ++ [certs]) rest
      else .error ("Adding CA certificates from '" ++ path ++ "': failed")

/-- The tls.Config literal of registry.go lines 173-176. -/
structure TLSConf where
  rootCAs : List String
  insecureSkipVerify : Bool
deriving DecidableEq, Repr

/-- The http.Transport literal of registry.go lines 160-177, with its
fixed connection parameters (durations in seconds). -/
structure HTTPTransport where
  proxyFromEnvironment : Bool
  dialTimeout : Nat
  dialKeepAlive : Nat
  dualStack : Bool
  maxIdleConns : Nat
  idleConnTimeout : Nat
  tlsHandshakeTimeout : Nat
  responseHeaderTimeout : Nat
  expectContinueTimeout : Nat
  tlsClientConfig : TLSConf
deriving DecidableEq, Repr

/-- The http.Transport value registry.go returns, given the finished
certificate pool and the VerifyCerts flag. -/
def mkTransport (pool : List String) (verifyCerts : Bool) : HTTPTransport :=
  ⟨true, 30, 30, true, 100, 90, 10, 10, 1,
    ⟨pool, verifyCerts == false⟩⟩

/-- The Registry struct (registry.go lines 29-31). -/
structure Registry where
  opts : RegistryOpts

/-- NewRegistry (registry.go lines 33-35). -/
def NewRegistry (opts : RegistryOpts) : Registry := ⟨opts⟩

/-- Registry.registryKeychain (registry.go lines 137-139). -/
def Registry.registryKeychain (i : Registry) : customRegistryKeychain :=
  ⟨i.opts⟩

/-- Registry.newHTTPTransport (registry.go lines 141-178).  The Go
guard (len(CACertPaths) > 0) before the loop is redundant with the
loop itself and is dropped. -/
def Registry.newHTTPTransport (i : Registry) (env : TransportEnv) :
    Except String HTTPTransport :=
  match appendCertPaths env (initialPool env) i.opts.CACertPaths with
  | .error e => .error e
  | .ok pool => .ok (mkTransport pool i.opts.VerifyCerts)

/-- Opaque result values of the protocol library's read operations. -/
structure Descriptor where
  id : Nat
deriving DecidableEq, Repr

/-- Opaque regv1.Image value. -/
structure ImageV where
  id : Nat
deriving DecidableEq, Repr

/-- Opaque regv1.ImageIndex value. -/
structure IndexV where
  id : Nat
deriving DecidableEq, Repr

/-- The option list Registry.imageOpts (registry.go lines 125-135)
hands to the protocol library for read operations: the built transport
and the keychain (WithAuthFromKeychain).  No credential resolution
happens here; the keychain itself is passed along for the library to
consult during the remote exchange. -/
structure ImageOpts where
  tran : HTTPTransport
  keychain : customRegistryKeychain

/-- Registry.imageOpts (registry.go lines 125-135): build the
transport (propagating its error unwrapped) and pair it with the
keychain. -/
def Registry.imageOpts (i : Registry) (env : TransportEnv) :
    Except String ImageOpts :=
  match i.newHTTPTransport env with
  | .error e => .error e
  | .ok t => .ok ⟨t, i.registryKeychain⟩

/-- Registry.Generic (registry.go lines 37-49): build imageOpts, then
delegate once to regremote.Get, modelled as an oracle consuming the
options (transport + keychain).  The second component counts how many
times the remote operation was invoked. -/
def Registry.Generic (i : Registry) (env : TransportEnv)
    (remoteGet : ImageOpts → Except String Descriptor) :
    Except String Descriptor × Nat :=
  match i.imageOpts env with
  | .error e => (.error e, 0)
  | .ok o => (remoteGet o, 1)

/-- Registry.Image (registry.go lines 51-58): build imageOpts, then
delegate once to regremote.Image. -/
def Registry.Image (i : Registry) (env : TransportEnv)
    (remoteImage : ImageOpts → Except String ImageV) :
    Except String ImageV × Nat :=
  match i.imageOpts env with
  | .error e => (.error e, 0)
  | .ok o => (remoteImage o, 1)

/-- Registry.Index (registry.go lines 81-88): build imageOpts, then
delegate once to regremote.Index. -/
def Registry.Index (i : Registry) (env : TransportEnv)
    (remoteIndex : ImageOpts → Except String IndexV) :
    Except String IndexV × Nat :=
  match i.imageOpts env with
  | .error e => (.error e, 0)
  | .ok o => (remoteIndex o, 1)

/-- Observable trace of a write operation: the error it returns (none
on success), how many times the underlying remote write was invoked,
and how many retry sleeps occurred. -/
structure WriteTrace where
  result : Option String
  writeCalls : Nat
  sleeps : Nat
deriving DecidableEq, Repr

/-- Registry.WriteImage (registry.go lines 60-79): build the transport
(error passed through unwrapped), resolve credentials eagerly (error
wrapped as "Getting auth details: ..."), then run regremote.Write
under the retry loop, wrapping a final failure as "Writing image:
...".  host is ref.Context().Registry; remoteWrite gives the outcome
of the j-th write attempt. -/
def Registry.WriteImage (i : Registry) (env : TransportEnv)
    (dc : DefaultChain) (host : String)
    (remoteWrite : Nat → Option RegError) : WriteTrace :=
  match i.newHTTPTransport env with
  | .error e => ⟨some e, 0, 0⟩
  | .ok _t =>
    match i.registryKeychain.Resolve dc host with
    | .error e => ⟨some ("Getting auth details: " ++ e), 0, 0⟩
    | .ok _auth =>
      let t := retry remoteWrite
      match t.outcome.errMsg with
      | none => ⟨none, t.calls, t.sleeps⟩
      | some m => ⟨some ("Writing image: " ++ m), t.calls, t.sleeps⟩

/-- Registry.WriteIndex (registry.go lines 90-109): same shape as
WriteImage with regremote.WriteIndex and the "Writing image index:
..." context. -/
def Registry.WriteIndex (i : Registry) (env : TransportEnv)
    (dc : DefaultChain) (host : String)
    (remoteWriteIndex : Nat → Option RegError) : WriteTrace :=
  match i.newHTTPTransport env with
  | .error e => ⟨some e, 0, 0⟩
  | .ok _t =>
    match i.registryKeychain.Resolve dc host with
    | .error e => ⟨some ("Getting auth details: " ++ e), 0, 0⟩
    | .ok _auth =>
      let t := retry remoteWriteIndex
      match t.outcome.errMsg with
      | none => ⟨none, t.calls, t.sleeps⟩
      | some m => ⟨some ("Writing image index: " ++ m), t.calls, t.sleeps⟩

/-- Registry.ListTags (registry.go lines 111-123): build the transport
(error passed through unwrapped), resolve credentials eagerly (error
wrapped as "Getting auth details: ..."), then delegate once to
regremote.List with no retry.  host is repo.Registry; the second
component counts remote invocations. -/
def Registry.ListTags (i : Registry) (env : TransportEnv)
    (dc : DefaultChain) (host : String)
    (remoteList : Except String (List String)) :
    Except String (List String) × Nat :=
  match i.newHTTPTransport env with
  | .error e => (.error e, 0)
  | .ok _t =>
    match i.registryKeychain.Resolve dc host with
    | .error e => (.error ("Getting auth details: " ++ e), 0)
    | .ok _auth => (remoteList, 1)

/-! Helper lemmas characterizing the retry loop on scripted attempts. -/

/-- If the first k attempts starting at index j fail retryably and
attempt j + k succeeds, the loop returns ok with k + 1 calls and k
sleeps, provided the fuel covers attempt k. -/
theorem retryFrom_success_at (doFunc : Nat → Option RegError) (k : Nat) :
    ∀ (fuel j : Nat) (lastMsg : String), k < fuel →
    (∀ n, n < k → ∃ e, doFunc (j + n) = some e ∧ isUnauthorizedTransport e = false) →
    doFunc (j + k) = none →
    retryFrom doFunc lastMsg j fuel = ⟨.ok, k + 1, k⟩ := by
  induction k with
  | zero =>
    intro fuel j lastMsg hk hfail hsucc
    obtain ⟨f, rfl⟩ : ∃ f, fuel = f + 1 := ⟨fuel - 1, by omega⟩
    simp only [Nat.add_zero] at hsucc
    simp [retryFrom, hsucc]
  | succ k ih =>
    intro fuel j lastMsg hk hfail hsucc
    obtain ⟨f, rfl⟩ : ∃ f, fuel = f + 1 := ⟨fuel - 1, by omega⟩
    obtain ⟨e0, he0, hne0⟩ := hfail 0 (Nat.succ_pos k)
    simp only [Nat.add_zero] at he0
    have hrec := ih f (j + 1) e0.message (by omega)
      (fun n hn => by
        obtain ⟨e, he, hne⟩ := hfail (n + 1) (by omega)
        refine ⟨e, ?_, hne⟩
        rw [show j + 1 + n = j + (n + 1) by omega]
        exact he)
      (by rw [show j + 1 + k = j + (k + 1) by omega]; exact hsucc)
    simp [retryFrom, he0, hne0, hrec]

/-- If the first k attempts starting at index j fail retryably and
attempt j + k fails with an unauthorized transport error, the loop
short-circuits: k + 1 calls, k sleeps (none after the unauthorized
failure), outcome nonRetryable wrapping that failure. -/
theorem retryFrom_unauth_at (doFunc : Nat → Option RegError) (k : Nat) :
    ∀ (fuel j : Nat) (lastMsg : String) (e : RegError), k < fuel →
    (∀ n, n < k → ∃ en, doFunc (j + n) = some en ∧ isUnauthorizedTransport en = false) →
    doFunc (j + k) = some e → isUnauthorizedTransport e = true →
    retryFrom doFunc lastMsg j fuel = ⟨.nonRetryable e.message, k + 1, k⟩ := by
  induction k with
  | zero =>
    intro fuel j lastMsg e hk hfail hke hunauth
    obtain ⟨f, rfl⟩ : ∃ f, fuel = f + 1 := ⟨fuel - 1, by omega⟩
    simp only [Nat.add_zero] at hke
    simp [retryFrom, hke, hunauth]
  | succ k ih =>
    intro fuel j lastMsg e hk hfail hke hunauth
    obtain ⟨f, rfl⟩ : ∃ f, fuel = f + 1 := ⟨fuel - 1, by omega⟩
    obtain ⟨e0, he0, hne0⟩ := hfail 0 (Nat.succ_pos k)
    simp only [Nat.add_zero] at he0
    have hrec := ih f (j + 1) e0.message e (by omega)
      (fun n hn => by
        obtain ⟨en, hen, hne⟩ := hfail (n + 1) (by omega)
        refine ⟨en, ?_, hne⟩
        rw [show j + 1 + n = j + (n + 1) by omega]
        exact hen)
      (by rw [show j + 1 + k = j + (k + 1) by omega]; exact hke) hunauth
    simp [retryFrom, he0, hne0, hrec]

/-- If every attempt the fuel allows fails retryably, the loop runs
fuel calls and fuel sleeps (one after every failure, the last
included) and exhausts, wrapping the message of the final attempt. -/
theorem retryFrom_all_fail (doFunc : Nat → Option RegError) :
    ∀ (fuel j : Nat) (lastMsg : String) (e : Nat → RegError),
    (∀ n, n < fuel → doFunc (j + n) = some (e n) ∧ isUnauthorizedTransport (e n) = false) →
    retryFrom doFunc lastMsg j fuel =
      ⟨.exhausted (match fuel with | 0 => lastMsg | f + 1 => (e f).message),
        fuel, fuel⟩ := by
  intro fuel
  induction fuel with
  | zero => intro j lastMsg e _h; simp [retryFrom]
  | succ f ih =>
    intro j lastMsg e h
    obtain ⟨he0, hne0⟩ := h 0 (Nat.succ_pos f)
    simp only [Nat.add_zero] at he0
    have hrec := ih (j + 1) (e 0).message (fun n => e (n + 1))
      (fun n hn => by
        obtain ⟨hen, hne⟩ := h (n + 1) (by omega)
        refine ⟨?_, hne⟩
        rw [show j + 1 + n = j + (n + 1) by omega]
        exact hen)
    simp only [retryFrom, he0, hne0, Bool.false_eq_true, if_false, hrec]
    cases f <;> rfl

/-- The loop never invokes doFunc more often than its fuel allows. -/
theorem retryFrom_calls_le (doFunc : Nat → Option RegError) :
    ∀ (fuel j : Nat) (lastMsg : String),
    (retryFrom doFunc lastMsg j fuel).calls ≤ fuel := by
  intro fuel
  induction fuel with
  | zero => intro j lastMsg; simp [retryFrom]
  | succ f ih =>
    intro j lastMsg
    simp only [retryFrom]
    cases doFunc j with
    | none => simp
    | some e =>
      cases hu : isUnauthorizedTransport e with
      | true => simp [hu]
      | false =>
        simp only [hu, Bool.false_eq_true, if_false]
        have := ih (j + 1) e.message
        simp
        omega

/-- C2: for every operation passed to the retry policy, if an attempt
fails with a protocol-transport error whose first reported sub-error
carries the unauthorized code (all earlier attempts having failed
retryably), the retry loop stops immediately and returns the
non-retryable error wrapping the original failure, with no further
attempts (k + 1 calls in total) and zero sleeps after that failure
(exactly k sleeps, all from the earlier failures). -/
theorem retry_unauthorized_short_circuits (doFunc : Nat → Option RegError)
    (k : Nat) (e : RegError) (hk : k < 5)
    (hbefore : ∀ n, n < k → ∃ en, doFunc n = some en ∧ isUnauthorizedTransport en = false)
    (hke : doFunc k = some e) (hunauth : isUnauthorizedTransport e = true) :
    retry doFunc = ⟨.nonRetryable e.message, k + 1, k⟩ ∧
    (retry doFunc).outcome.errMsg = some ("Non-retryable error: " ++ e.message) := by
  have h := retryFrom_unauth_at doFunc k 5 0 "" e hk
    (fun n hn => by simpa using hbefore n hn) (by simpa using hke) hunauth
  exact ⟨h, by rw [retry] at *; rw [h]; rfl⟩

/-- C2 witness: an unauthorized transport failure on the very first
attempt yields the non-retryable outcome with one call and no sleep. -/
theorem retry_unauthorized_short_circuits_witness :
    retry (fun _ => some (.transport [⟨.unauthorized⟩] "401 denied")) =
      ⟨.nonRetryable "401 denied", 1, 0⟩ :=
  (retry_unauthorized_short_circuits
    (fun _ => some (.transport [⟨.unauthorized⟩] "401 denied"))
    0 (.transport [⟨.unauthorized⟩] "401 denied") (by omega)
    (fun n hn => absurd hn (Nat.not_lt_zero n)) rfl rfl).1

/-- C3: the retry policy makes at most 5 attempts for every operation,
and an operation whose 5 attempts all fail without the unauthorized
short-circuit yields the exhausted outcome wrapping the 5th failure's
message, rendered as the error string that states the attempt count. -/
theorem retry_exhausted_after_five (doFunc : Nat → Option RegError)
    (e : Nat → RegError)
    (hfail : ∀ n, n < 5 → doFunc n = some (e n) ∧ isUnauthorizedTransport (e n) = false) :
    retry doFunc = ⟨.exhausted ((e 4).message), 5, 5⟩ ∧
    (retry doFunc).outcome.errMsg = some ("Retried 5 times: " ++ (e 4).message) ∧
    ∀ g : Nat → Option RegError, (retry g).calls ≤ 5 := by
  have h := retryFrom_all_fail doFunc 5 0 "" e (fun n hn => by simpa using hfail n hn)
  refine ⟨h, ?_, fun g => retryFrom_calls_le g 5 0 ""⟩
  rw [retry] at *
  rw [h]
  rfl

/-- C3 witness: five identical plain failures exhaust the budget. -/
theorem retry_exhausted_after_five_witness :
    retry (fun _ => some (.plain "connection reset")) =
      ⟨.exhausted "connection reset", 5, 5⟩ :=
  (retry_exhausted_after_five (fun _ => some (.plain "connection reset"))
    (fun _ => .plain "connection reset") (fun _n _hn => ⟨rfl, rfl⟩)).1

/-- C5: an operation that fails retryably on attempts 1-4 and succeeds
on attempt 5 returns success, with exactly 4 sleeps, one after each of
the 4 failures (hence one between each pair of consecutive attempts),
and 5 calls in total. -/
theorem retry_success_on_fifth (doFunc : Nat → Option RegError)
    (hfail : ∀ n, n < 4 → ∃ en, doFunc n = some en ∧ isUnauthorizedTransport en = false)
    (hsucc : doFunc 4 = none) :
    retry doFunc = ⟨.ok, 5, 4⟩ := by
  have h := retryFrom_success_at doFunc 4 5 0 "" (by omega)
    (fun n hn => by simpa using hfail n hn) (by simpa using hsucc)
  exact h

/-- C5 witness: four timeouts then success. -/
theorem retry_success_on_fifth_witness :
    retry (fun n => if n < 4 then some (.plain "timeout") else none) =
      ⟨.ok, 5, 4⟩ :=
  retry_success_on_fifth (fun n => if n < 4 then some (.plain "timeout") else none)
    (fun n hn => ⟨.plain "timeout", if_pos hn, rfl⟩) (by simp)

/-- C9: when all 5 attempts fail without the unauthorized
short-circuit, exactly 5 one-second sleeps occur - one after every
failed attempt, including one after the final 5th attempt before the
exhaustion error is returned. -/
theorem retry_exhausted_five_sleeps (doFunc : Nat → Option RegError)
    (e : Nat → RegError)
    (hfail : ∀ n, n < 5 → doFunc n = some (e n) ∧ isUnauthorizedTransport (e n) = false) :
    (retry doFunc).sleeps = 5 ∧ (retry doFunc).calls = 5 := by
  have h := retryFrom_all_fail doFunc 5 0 "" e (fun n hn => by simpa using hfail n hn)
  rw [retry] at *
  rw [h]
  exact ⟨rfl, rfl⟩

/-- C9 witness: five distinct plain failures sleep five times. -/
theorem retry_exhausted_five_sleeps_witness :
    (retry (fun n => some (.plain (String.append "err" (toString n))))).sleeps = 5 :=
  (retry_exhausted_five_sleeps (fun n => some (.plain (String.append "err" (toString n))))
    (fun n => .plain (String.append "err" (toString n)))
    (fun _n _hn => ⟨rfl, rfl⟩)).1

/-- C10: a transport error with an empty sub-error list, or whose
first sub-error carries a code other than unauthorized, does not
trigger the short-circuit; an operation failing on all 5 attempts with
only such errors is retried through the whole 5-attempt budget and
exhausts. -/
theorem retry_non_unauthorized_is_retried (ds : Nat → List Diag) (ms : Nat → String)
    (h : ∀ n, n < 5 → ds n = [] ∨ ∃ d l, ds n = d :: l ∧ d.code ≠ ErrorCode.unauthorized) :
    (∀ m, isUnauthorizedTransport (.transport [] m) = false) ∧
    (∀ d l m, d.code ≠ ErrorCode.unauthorized →
      isUnauthorizedTransport (.transport (d :: l) m) = false) ∧
    retry (fun n => some (.transport (ds n) (ms n))) = ⟨.exhausted (ms 4), 5, 5⟩ := by
  refine ⟨fun m => rfl, fun d l m hd => by simp [isUnauthorizedTransport, hd], ?_⟩
  have h5 := retryFrom_all_fail (fun n => some (.transport (ds n) (ms n))) 5 0 ""
    (fun n => .transport (ds n) (ms n))
    (fun n hn => by
      refine ⟨by simp, ?_⟩
      show isUnauthorizedTransport (.transport (ds n) (ms n)) = false
      rcases h n hn with hnil | ⟨d, l, hcons, hd⟩
      · rw [hnil]; rfl
      · rw [hcons]; simp [isUnauthorizedTransport, hd])
  exact h5

/-- C10 witness: five rate-limit transport errors (code other than
unauthorized) run the full budget. -/
theorem retry_non_unauthorized_is_retried_witness :
    retry (fun _ => some (.transport [⟨.other "TOOMANYREQUESTS"⟩] "429 slow down")) =
      ⟨.exhausted "429 slow down", 5, 5⟩ :=
  (retry_non_unauthorized_is_retried (fun _ => [⟨.other "TOOMANYREQUESTS"⟩])
    (fun _ => "429 slow down")
    (fun _n _hn => Or.inr ⟨⟨.other "TOOMANYREQUESTS"⟩, [], rfl, by decide⟩)).2.2

/-- A string is non-empty exactly when its length is positive (the Go
code tests len(s) > 0, the spec speaks of non-empty fields). -/
theorem string_length_pos_iff (s : String) : 0 < s.length ↔ s ≠ "" := by
  cases s with
  | mk data =>
    constructor
    · intro h heq
      rw [heq] at h
      exact absurd h (by decide)
    · intro h
      rcases data with _ | ⟨c, cs⟩
      · exact absurd (by decide) h
      · simp

/-- C1: credential resolution follows the fixed precedence with first
match winning: non-empty username yields Basic(username, password);
else non-empty token yields Bearer(token); else anonymous yields the
Anonymous authenticator; else the platform default chain is consulted,
keyed by the registry host.  In particular, with username, token and
anonymous all set simultaneously the result is Basic, never Bearer or
Anonymous, whatever the other fields hold. -/
theorem resolve_precedence (opts : RegistryOpts) (dc : DefaultChain) (host : String) :
    (opts.Username ≠ "" →
      (NewRegistry opts).registryKeychain.Resolve dc host =
        .ok (.basic opts.Username opts.Password)) ∧
    (opts.Username = "" → opts.Token ≠ "" →
      (NewRegistry opts).registryKeychain.Resolve dc host =
        .ok (.bearer opts.Token)) ∧
    (opts.Username = "" → opts.Token = "" → opts.Anon = true →
      (NewRegistry opts).registryKeychain.Resolve dc host = .ok .anonymous) ∧
    (opts.Username = "" → opts.Token = "" → opts.Anon = false →
      (NewRegistry opts).registryKeychain.Resolve dc host = dc host) ∧
    (opts.Username ≠ "" → opts.Token ≠ "" → opts.Anon = true →
      (NewRegistry opts).registryKeychain.Resolve dc host =
        .ok (.basic opts.Username opts.Password)) := by
  refine ⟨?_, ?_, ?_, ?_, ?_⟩
  · intro hu
    have hpos := (string_length_pos_iff opts.Username).2 hu
    simp [NewRegistry, Registry.registryKeychain, customRegistryKeychain.Resolve, hpos]
  · intro hu ht
    have htpos := (string_length_pos_iff opts.Token).2 ht
    simp [NewRegistry, Registry.registryKeychain, customRegistryKeychain.Resolve, hu, htpos]
  · intro hu ht ha
    simp [NewRegistry, Registry.registryKeychain, customRegistryKeychain.Resolve, hu, ht, ha]
  · intro hu ht ha
    simp [NewRegistry, Registry.registryKeychain, customRegistryKeychain.Resolve, hu, ht, ha]
  · intro hu _ht _ha
    have hpos := (string_length_pos_iff opts.Username).2 hu
    simp [NewRegistry, Registry.registryKeychain, customRegistryKeychain.Resolve, hpos]

/-- C1 witness: with username "u", token "tkn" and anonymous all set
at once, resolution yields Basic("u", "p"). -/
theorem resolve_precedence_witness :
    (NewRegistry ⟨[], true, "u", "p", "tkn", true⟩).registryKeychain.Resolve
      (fun _ => .ok (.fromDefaultChain 7)) "registry.example.com" =
      .ok (.basic "u" "p") :=
  (resolve_precedence ⟨[], true, "u", "p", "tkn", true⟩
    (fun _ => .ok (.fromDefaultChain 7)) "registry.example.com").1 (by decide)

/-- The bytes readFile yields for a path; meaningful only under the
hypothesis that the read succeeds. -/
def readOk (env : TransportEnv) (path : String) : String :=
  match env.readFile path with
  | .ok c => c
  | .error _ => ""

/-- When every listed CA path is readable and holds valid PEM content,
the append loop succeeds and extends the pool with the files' bytes in
list order. -/
theorem appendCertPaths_ok (env : TransportEnv) :
    ∀ (paths pool : List String),
    (∀ q ∈ paths, ∃ c, env.readFile q = .ok c ∧ env.validPEM c = true) →
    appendCertPaths env pool paths = .ok (pool ++ paths.map (readOk env)) := by
  intro paths
  induction paths with
  | nil => intro pool _h; simp [appendCertPaths]
  | cons p rest ih =>
    intro pool h
    obtain ⟨c, hc, hv⟩ := h p (List.mem_cons_self ..)
    have hro : readOk env p = c := by simp [readOk, hc]
    have hrest := ih (pool ++ [c]) (fun q hq => h q (List.mem_cons_of_mem _ hq))
    simp [appendCertPaths, hc, hv, hrest, hro]

/-- When every path before p is fine and p itself is unreadable or
holds invalid PEM content, the append loop fails with the message
naming p. -/
theorem appendCertPaths_err (env : TransportEnv) :
    ∀ (good pool : List String) (p : String) (rest : List String),
    (∀ q ∈ good, ∃ c, env.readFile q = .ok c ∧ env.validPEM c = true) →
    (∀ msg, env.readFile p = .error msg →
      appendCertPaths env pool (good ++ p :: rest) =
        .error ("Reading CA certificates from '" ++ p ++ "': " ++ msg)) ∧
    (∀ c, env.readFile p = .ok c → env.validPEM c = false →
      appendCertPaths env pool (good ++ p :: rest) =
        .error ("Adding CA certificates from '" ++ p ++ "': failed")) := by
  intro good
  induction good with
  | nil =>
    intro pool p rest _h
    constructor
    · intro msg hmsg
      simp [appendCertPaths, hmsg]
    · intro c hc hv
      simp [appendCertPaths, hc, hv]
  | cons q0 qs ih =>
    intro pool p rest h
    obtain ⟨c0, hc0, hv0⟩ := h q0 (List.mem_cons_self ..)
    have ihx := ih (pool ++ [c0]) p rest (fun q hq => h q (List.mem_cons_of_mem _ hq))
    constructor
    · intro msg hmsg
      simp [appendCertPaths, hc0, hv0, ihx.1 msg hmsg]
    · intro c hc hv
      simp [appendCertPaths, hc0, hv0, ihx.2 c hc hv]

/-- C6: transport building starts its trust pool from the system trust
store, falling back to an empty pool (not an error) when the system
store is unavailable; each path in CACertPaths is read and appended in
order; and a path that is unreadable or holds invalid PEM content
(every earlier path being fine) makes the build fail with the
configuration error message naming that path. -/
theorem transport_trust_pool :
    (∀ (env : TransportEnv) (p : List String),
      env.systemPool = some p → initialPool env = p) ∧
    (∀ env : TransportEnv, env.systemPool = none → initialPool env = []) ∧
    (∀ (env : TransportEnv) (i : Registry),
      (∀ q ∈ i.opts.CACertPaths, ∃ c, env.readFile q = .ok c ∧ env.validPEM c = true) →
      i.newHTTPTransport env =
        .ok (mkTransport (initialPool env ++ i.opts.CACertPaths.map (readOk env))
          i.opts.VerifyCerts)) ∧
    (∀ (env : TransportEnv) (i : Registry) (good : List String) (p : String)
        (rest : List String),
      i.opts.CACertPaths = good ++ p :: rest →
      (∀ q ∈ good, ∃ c, env.readFile q = .ok c ∧ env.validPEM c = true) →
      (∀ msg, env.readFile p = .error msg →
        i.newHTTPTransport env =
          .error ("Reading CA certificates from '" ++ p ++ "': " ++ msg)) ∧
      (∀ c, env.readFile p = .ok c → env.validPEM c = false →
        i.newHTTPTransport env =
          .error ("Adding CA certificates from '" ++ p ++ "': failed"))) := by
  refine ⟨?_, ?_, ?_, ?_⟩
  · intro env p hp; simp [initialPool, hp]
  · intro env hp; simp [initialPool, hp]
  · intro env i h
    have := appendCertPaths_ok env i.opts.CACertPaths (initialPool env) h
    simp [Registry.newHTTPTransport, this]
  · intro env i good p rest hsplit h
    have herr := appendCertPaths_err env good (initialPool env) p rest h
    constructor
    · intro msg hmsg
      simp [Registry.newHTTPTransport, hsplit, herr.1 msg hmsg]
    · intro c hc hv
      simp [Registry.newHTTPTransport, hsplit, herr.2 c hc hv]

/-- Fixed sample environment: system pool holding one certificate,
every file readable with content "PEMDATA", which is the only content
AppendCertsFromPEM accepts. -/
def env0 : TransportEnv :=
  ⟨some ["syscert"], fun _ => .ok "PEMDATA", fun c => c == "PEMDATA"⟩

/-- C6 witness: one CA path on env0 extends the system pool with the
file's bytes. -/
theorem transport_trust_pool_witness :
    (NewRegistry ⟨["/etc/ca.pem"], true, "", "", "", false⟩).newHTTPTransport env0 =
      .ok (mkTransport ["syscert", "PEMDATA"] true) :=
  transport_trust_pool.2.2.1 env0 (NewRegistry ⟨["/etc/ca.pem"], true, "", "", "", false⟩)
    (fun _q _hq => ⟨"PEMDATA", rfl, rfl⟩)

/-- C7: whenever transport building succeeds, the TLS configuration
skips certificate verification exactly when VerifyCerts is false,
whatever the other fields hold, and its root trust is the pool the
append loop built from the initial (system or empty) pool plus the
user-supplied CA certificates. -/
theorem tls_verify_toggle (env : TransportEnv) (i : Registry) (t : HTTPTransport)
    (h : i.newHTTPTransport env = .ok t) :
    t.tlsClientConfig.insecureSkipVerify = !i.opts.VerifyCerts ∧
    (i.opts.VerifyCerts = false → t.tlsClientConfig.insecureSkipVerify = true) ∧
    (i.opts.VerifyCerts = true → t.tlsClientConfig.insecureSkipVerify = false) ∧
    ∃ pool, appendCertPaths env (initialPool env) i.opts.CACertPaths = .ok pool ∧
      t.tlsClientConfig.rootCAs = pool := by
  unfold Registry.newHTTPTransport at h
  cases hap : appendCertPaths env (initialPool env) i.opts.CACertPaths with
  | error e => rw [hap] at h; exact absurd h (by simp)
  | ok pool =>
    rw [hap] at h
    simp only [Except.ok.injEq] at h
    subst h
    refine ⟨?_, ?_, ?_, pool, rfl, rfl⟩
    · cases i.opts.VerifyCerts <;> rfl
    · intro hv; rw [hv]; rfl
    · intro hv; rw [hv]; rfl

/-- Environment with no system pool and no readable files. -/
def env1 : TransportEnv := ⟨none, fun _ => .error "unreadable", fun _ => false⟩

/-- C7 witness: with VerifyCerts false and no CA paths, the built TLS
config has verification skipped. -/
theorem tls_verify_toggle_witness :
    (mkTransport [] false).tlsClientConfig.insecureSkipVerify = true :=
  (tls_verify_toggle env1 (NewRegistry ⟨[], false, "", "", "", false⟩)
    (mkTransport [] false) rfl).2.1 rfl

/-- Trivial environment on which transport building always succeeds
with an empty pool. -/
def envPlain : TransportEnv := ⟨some [], fun _ => .error "unused", fun _ => false⟩

/-- A default chain on which every lookup fails. -/
def dcFail : DefaultChain := fun _ => .error "no matching credentials"

/-- A configuration with no credential field set: resolution falls
through to the default chain. -/
def optsNone : RegistryOpts := ⟨[], true, "", "", "", false⟩

/-- Modelled protocol-library behaviour for the C4 counterexample: the
library consults the keychain it was handed (WithAuthFromKeychain) in
the course of the remote exchange and fails the fetch when resolution
fails, passing the resolution error through. -/
def fetchUsingKeychain : ImageOpts → Except String ImageV := fun o =>
  match o.keychain.Resolve dcFail "registry.example.com" with
  | .error e => .error e
  | .ok _ => .ok ⟨0⟩

/-- C4 counterexample: a configuration whose credential resolution
fails, on which getImage nevertheless invokes the remote operation
(second component 1) and returns the raw resolution failure with no
"Getting auth details: " context - the read operations do not fail
fast on credential-resolution failure. -/
theorem getImage_no_failfast_cx :
    (NewRegistry optsNone).registryKeychain.Resolve dcFail "registry.example.com" =
      .error "no matching credentials" ∧
    (NewRegistry optsNone).Image envPlain fetchUsingKeychain =
      (.error "no matching credentials", 1) ∧
    "no matching credentials" ≠ "Getting auth details: no matching credentials" :=
  ⟨rfl, rfl, by decide⟩

/-- C4 amended: the operations that resolve credentials eagerly
(writeImage, writeIndex, listTags) fail fast on resolution failure
with the "Getting auth details: " context and perform zero remote
calls - in particular the writes never invoke the underlying write
call - while the read operations (getDescriptor, getImage, getIndex)
do not resolve credentials themselves: they hand the keychain to the
protocol library and invoke the delegated remote operation exactly
once, adding no such context. -/
theorem auth_failfast_amended (i : Registry) (env : TransportEnv) (dc : DefaultChain)
    (host : String) (e : String) (t : HTTPTransport)
    (htran : i.newHTTPTransport env = .ok t)
    (hres : i.registryKeychain.Resolve dc host = .error e) :
    (∀ w, i.WriteImage env dc host w =
      ⟨some ("Getting auth details: " ++ e), 0, 0⟩) ∧
    (∀ w, i.WriteIndex env dc host w =
      ⟨some ("Getting auth details: " ++ e), 0, 0⟩) ∧
    (∀ l, i.ListTags env dc host l =
      (.error ("Getting auth details: " ++ e), 0)) ∧
    (∀ g, i.Generic env g = (g ⟨t, i.registryKeychain⟩, 1)) ∧
    (∀ f, i.Image env f = (f ⟨t, i.registryKeychain⟩, 1)) ∧
    (∀ x, i.Index env x = (x ⟨t, i.registryKeychain⟩, 1)) := by
  refine ⟨?_, ?_, ?_, ?_, ?_, ?_⟩
  · intro w; simp [Registry.WriteImage, htran, hres]
  · intro w; simp [Registry.WriteIndex, htran, hres]
  · intro l; simp [Registry.ListTags, htran, hres]
  · intro g; simp [Registry.Generic, Registry.imageOpts, htran]
  · intro f; simp [Registry.Image, Registry.imageOpts, htran]
  · intro x; simp [Registry.Index, Registry.imageOpts, htran]

/-- C4 amended witness: on the failing-chain configuration, writeImage
fails fast with the auth context and zero write calls. -/
theorem auth_failfast_amended_witness :
    (NewRegistry optsNone).WriteImage envPlain dcFail "registry.example.com"
      (fun _ => none) =
      ⟨some ("Getting auth details: " ++ "no matching credentials"), 0, 0⟩ :=
  (auth_failfast_amended (NewRegistry optsNone) envPlain dcFail "registry.example.com"
    "no matching credentials" (mkTransport [] true) rfl rfl).1 (fun _ => none)

/-- A configuration that resolves anonymously. -/
def optsAnon : RegistryOpts := ⟨[], true, "", "", "", true⟩

/-- C8: the retry policy wraps exactly the two write operations: on a
final retry failure, writeImage surfaces "Writing image: <cause>" and
writeIndex "Writing image index: <cause>", their remote call and sleep
counts being those of the retry loop; the read operations and listTags
invoke their delegated remote operation at most once, with no retry
loop around it. -/
theorem retry_only_writes (i : Registry) (env : TransportEnv) (dc : DefaultChain)
    (host : String) (t : HTTPTransport) (a : Authenticator)
    (htran : i.newHTTPTransport env = .ok t)
    (hres : i.registryKeychain.Resolve dc host = .ok a)
    (w : Nat → Option RegError) (m : String)
    (hfail : (retry w).outcome.errMsg = some m) :
    i.WriteImage env dc host w =
      ⟨some ("Writing image: " ++ m), (retry w).calls, (retry w).sleeps⟩ ∧
    i.WriteIndex env dc host w =
      ⟨some ("Writing image index: " ++ m), (retry w).calls, (retry w).sleeps⟩ ∧
    (∀ l, (i.ListTags env dc host l).2 ≤ 1) ∧
    (∀ g, (i.Generic env g).2 ≤ 1) ∧
    (∀ f, (i.Image env f).2 ≤ 1) ∧
    (∀ x, (i.Index env x).2 ≤ 1) := by
  refine ⟨?_, ?_, ?_, ?_, ?_, ?_⟩
  · simp [Registry.WriteImage, htran, hres, hfail]
  · simp [Registry.WriteIndex, htran, hres, hfail]
  · intro l; simp [Registry.ListTags, htran, hres]
  · intro g; simp [Registry.Generic, Registry.imageOpts, htran]
  · intro f; simp [Registry.Image, Registry.imageOpts, htran]
  · intro x; simp [Registry.Index, Registry.imageOpts, htran]

/-- C8 witness: with anonymous credentials and a write that always
fails, writeImage surfaces the exhausted retry error under the
"Writing image: " context after 5 calls and 5 sleeps. -/
theorem retry_only_writes_witness :
    (NewRegistry optsAnon).WriteImage envPlain dcFail "registry.example.com"
      (fun _ => some (.plain "disk full")) =
      ⟨some ("Writing image: " ++ ("Retried 5 times: " ++ "disk full")), 5, 5⟩ :=
  (retry_only_writes (NewRegistry optsAnon) envPlain dcFail "registry.example.com"
    (mkTransport [] true) .anonymous rfl rfl
    (fun _ => some (.plain "disk full")) ("Retried 5 times: " ++ "disk full") rfl).1

end Imgpkg
